import Mathlib

/-!
Shallow embedding of the document-transformation core of the ESDM report
tool (src/types.ts): the Module-4 analyzer/repair pipeline over the parsed
WordprocessingML body, the IEP table synthesizer's short-goal rewrite
heuristic, the smart-fill summary-paragraph pass, and the package-level
behavior of MODULE_4_FIX.  Machine floats appear only as percentage values;
they are modelled as rationals.  JS regular-expression matching is modelled
by explicit leftmost scanners over character lists.
-/

/-! ### Character-level helpers (JS regex classes)

The JS classes are modelled on plain characters: the digit class exactly,
the whitespace class by its ASCII part, and the ignore-case flag by
`Char.toLower` (ASCII case folding; the inputs under proof are lowercase).
-/

/-- JS regex whitespace class, restricted to its ASCII members. -/
def isWsChar (c : Char) : Bool :=
  c == ' ' || c == '\t' || c == '\n' || c == '\r'

/-- Value of a decimal digit string, as JS parseInt reads the captured group. -/
def digitsToNat (ds : List Char) : Nat :=
  ds.foldl (fun n c => 10 * n + (c.toNat - 48)) 0

/-- First successful alternative, as regex backtracking tries candidates in order. -/
def firstSome {α : Type} : List (Option α) → Option α
  | [] => none
  | some a :: _ => some a
  | none :: rest => firstSome rest

/-- Candidate splits for a greedy bounded digit group such as in the range
pattern: longest first, down to one digit, mirroring regex backtracking. -/
def digitTakeCandidates (s : List Char) (maxLen : Nat) : List (List Char × List Char) :=
  let k := min maxLen (s.takeWhile Char.isDigit).length
  (List.range k).map fun i => (s.take (k - i), s.drop (k - i))

/-- Match a literal word case-insensitively (pattern given lowercase), returning
the matched original characters and the remainder. -/
def matchLitCI : List Char → List Char → Option (List Char × List Char)
  | [], s => some ([], s)
  | _ :: _, [] => none
  | u :: us, c :: cs =>
    if c.toLower == u then
      (matchLitCI us cs).map fun p => (c :: p.1, p.2)
    else none

/-- First alternative of a word alternation that matches, in pattern order. -/
def matchFirstUnit : List (List Char) → List Char → Option (List Char × List Char)
  | [], _ => none
  | u :: us, s => matchLitCI u s <|> matchFirstUnit us s

/-- Unit vocabulary of the range pattern in the synthesizer. -/
def rangeUnits : List (List Char) :=
  (["lần", "bậc", "loại", "câu", "từ", "chữ"]).map String.data

/-- Unit vocabulary of the bare-count pattern in the synthesizer. -/
def countUnits : List (List Char) :=
  (["lần", "bậc", "loại"]).map String.data

/-- Optional trailing unit group of the range pattern: one-or-more whitespace
then a unit word; on failure the group matches empty. -/
def matchUnitSuffix (units : List (List Char)) (s : List Char) : List Char × List Char :=
  let p := s.span isWsChar
  if p.1.isEmpty then ([], s)
  else
    match matchFirstUnit units p.2 with
    | some q => (p.1 ++ q.1, q.2)
    | none => ([], s)

/-- Successful match of the synthesizer's range pattern: the two captured
bounds, the whole matched text, and the captured unit suffix (group 3). -/
structure RangeMatch where
  a : Nat
  b : Nat
  full : List Char
  suffix : List Char
deriving DecidableEq

/-- Continue the range pattern after its first digit group. -/
def rangeTail (d1 after : List Char) : Option RangeMatch :=
  let p1 := after.span isWsChar
  match p1.2 with
  | '-' :: r2 =>
    let p2 := r2.span isWsChar
    let d2run := p2.2.takeWhile Char.isDigit
    if d2run.isEmpty then none
    else
      let d2 := d2run.take 2
      let suf := (matchUnitSuffix rangeUnits (p2.2.drop d2.length)).1
      some ⟨digitsToNat d1, digitsToNat d2, d1 ++ p1.1 ++ '-' :: p2.1 ++ d2 ++ suf, suf⟩
  | _ => none

/-- Attempt the range pattern at the start of the text. -/
def matchRangeAt (s : List Char) : Option RangeMatch :=
  firstSome ((digitTakeCandidates s 2).map fun p => rangeTail p.1 p.2)

/-- Leftmost match of the range pattern in the text. -/
def findRange : List Char → Option RangeMatch
  | [] => none
  | c :: cs => matchRangeAt (c :: cs) <|> findRange cs

/-- Successful match of the synthesizer's ratio pattern. -/
structure RatioMatch where
  x : Nat
  y : Nat
  full : List Char
deriving DecidableEq

/-- Continue the ratio pattern after its first digit group. -/
def ratioTail (d1 after : List Char) : Option RatioMatch :=
  let p1 := after.span isWsChar
  match p1.2 with
  | '/' :: r2 =>
    let p2 := r2.span isWsChar
    let d2run := p2.2.takeWhile Char.isDigit
    if d2run.isEmpty then none
    else
      let d2 := d2run.take 3
      some ⟨digitsToNat d1, digitsToNat d2, d1 ++ p1.1 ++ '/' :: p2.1 ++ d2⟩
  | _ => none

/-- Attempt the ratio pattern at the start of the text. -/
def matchRatioAt (s : List Char) : Option RatioMatch :=
  firstSome ((digitTakeCandidates s 3).map fun p => ratioTail p.1 p.2)

/-- Leftmost match of the ratio pattern in the text. -/
def findRatio : List Char → Option RatioMatch
  | [] => none
  | c :: cs => matchRatioAt (c :: cs) <|> findRatio cs

/-- Successful match of the synthesizer's percentage pattern. -/
structure PercentMatch where
  x : Nat
  full : List Char
deriving DecidableEq

/-- Attempt the percentage pattern at the start of the text. -/
def matchPercentAt (s : List Char) : Option PercentMatch :=
  let drun := s.takeWhile Char.isDigit
  if drun.isEmpty then none
  else
    let p := (s.drop drun.length).span isWsChar
    match p.2 with
    | '%' :: _ => some ⟨digitsToNat drun, drun ++ p.1 ++ ['%']⟩
    | _ => none

/-- Leftmost match of the percentage pattern in the text. -/
def findPercent : List Char → Option PercentMatch
  | [] => none
  | c :: cs => matchPercentAt (c :: cs) <|> findPercent cs

/-- Successful match of the synthesizer's bare-count pattern. -/
structure UnitCountMatch where
  x : Nat
  unit : List Char
  full : List Char
deriving DecidableEq

/-- Attempt the bare-count pattern at the start of the text. -/
def matchUnitCountAt (s : List Char) : Option UnitCountMatch :=
  let drun := s.takeWhile Char.isDigit
  if drun.isEmpty then none
  else
    let p := (s.drop drun.length).span isWsChar
    if p.1.isEmpty then none
    else
      match matchFirstUnit countUnits p.2 with
      | some q => some ⟨digitsToNat drun, q.1, drun ++ p.1 ++ q.1⟩
      | none => none

/-- Leftmost match of the bare-count pattern in the text. -/
def findUnitCount : List Char → Option UnitCountMatch
  | [] => none
  | c :: cs => matchUnitCountAt (c :: cs) <|> findUnitCount cs

/-- JS String.replace with a string pattern: replace the first occurrence only. -/
def replFirst : List Char → List Char → List Char → List Char
  | [], pat, repl => if pat.isEmpty then repl else []
  | c :: cs, pat, repl =>
    if pat.isPrefixOf (c :: cs) then repl ++ (c :: cs).drop pat.length
    else c :: replFirst cs pat repl

/-- Decimal rendering of an integer, as JS template interpolation prints it. -/
def intStr (n : Int) : List Char := (toString n).data

/-- Decimal rendering of a natural number. -/
def natStr (n : Nat) : List Char := (toString n).data

/-- JS Math.round of the exact quotient num/den (half rounds up).  The source
computes on doubles, but for the quotients x/3 and 2x/3 of an integer x no
representable tie exists, so exact rational rounding coincides. -/
def jsRoundDiv (num den : Nat) : Nat := (2 * num + den) / (2 * den)

/-- Bounds of the two reduced ranges the synthesizer builds from a matched
range a-b: subtract 2 resp. 1 from both bounds, floor the lower bound at 1,
and keep the lower bound at least 1 below the upper. -/
def rangeSplitBounds (a b : Int) : (Int × Int) × (Int × Int) :=
  let a1 := max 1 (a - 2)
  let b1 := max (a1 + 1) (b - 2)
  let a2 := max 1 (a - 1)
  let b2 := max (a2 + 1) (b - 1)
  ((a1, b1), (a2, b2))

/-- Short-goal rewrite heuristic of the Table Synthesizer (GENERATE_IEP with
smartSplitting on): try range, ratio, percentage, then bare count, in order;
build the three short-goal texts, the third always the unmodified original. -/
def smartSplitGoal (txt : String) : List String :=
  match findRange txt.data with
  | some m =>
    if m.a < m.b then
      let bs := rangeSplitBounds (m.a : Int) (m.b : Int)
      [ String.mk (replFirst txt.data m.full (intStr bs.1.1 ++ '-' :: intStr bs.1.2 ++ m.suffix)),
        String.mk (replFirst txt.data m.full (intStr bs.2.1 ++ '-' :: intStr bs.2.2 ++ m.suffix)),
        txt ]
    else [txt, txt, txt]
  | none =>
    match findRatio txt.data with
    | some m =>
      if m.x ≤ m.y then
        [ String.mk (replFirst txt.data m.full (intStr (max 1 ((m.x : Int) - 2)) ++ '/' :: natStr m.y)),
          String.mk (replFirst txt.data m.full (intStr (max 1 ((m.x : Int) - 1)) ++ '/' :: natStr m.y)),
          txt ]
      else [txt, txt, txt]
    | none =>
      match findPercent txt.data with
      | some m =>
        [ String.mk (replFirst txt.data m.full (natStr (jsRoundDiv m.x 3) ++ ['%'])),
          String.mk (replFirst txt.data m.full (natStr (jsRoundDiv (m.x * 2) 3) ++ ['%'])),
          txt ]
      | none =>
        match findUnitCount txt.data with
        | some m =>
          [ String.mk (replFirst txt.data m.full (intStr (max 1 ((m.x : Int) - 2)) ++ ' ' :: m.unit)),
            String.mk (replFirst txt.data m.full (intStr (max 1 ((m.x : Int) - 1)) ++ ' ' :: m.unit)),
            txt ]
        | none => [txt, txt, txt]

/-! ### Module 4: parsed document-body model

The main document body is modelled as the flat list of its block-level
nodes; a table carries its tblPr children and its rows.  Rows are opaque
here: no Module-4 operation under proof inspects a row's content, only
moves whole rows between tables. -/

/-- JS String.prototype.trim (whitespace as in `isWsChar`): drop leading and
trailing whitespace. -/
def jsTrim (s : String) : String :=
  String.mk (((s.data.dropWhile isWsChar).reverse.dropWhile isWsChar).reverse)

/-- One side of a border-definition element, with its four attributes. -/
structure BorderSide where
  side : String
  val : String
  sz : String
  space : String
  color : String
deriving DecidableEq

/-- A child element of a table-properties element.  Only the
border-definition child is interpreted; every other child is carried
opaquely by its tag. -/
inductive TblPrChild where
  | borders (sides : List BorderSide)
  | otherPr (tag : String)
deriving DecidableEq

/-- Whether a tblPr child is the border-definition element. -/
def isBordersElem : TblPrChild → Bool
  | .borders _ => true
  | .otherPr _ => false

/-- Remove the first border-definition child, as removeChild of the first
element found does. -/
def removeFirstBorders : List TblPrChild → List TblPrChild
  | [] => []
  | c :: cs => if isBordersElem c then cs else c :: removeFirstBorders cs

/-- The fresh border-definition element the repair builds: all six sides as
a uniform thin single line. -/
def stdTblBorders : TblPrChild :=
  .borders ((["top", "left", "bottom", "right", "insideH", "insideV"]).map
    fun s => ⟨s, "single", "4", "0", "auto"⟩)

/-- The fixBorders repair on the tblPr children: drop any existing
border-definition element and append the fresh complete one. -/
def fixBorders (tblPr : List TblPrChild) : List TblPrChild :=
  removeFirstBorders tblPr ++ [stdTblBorders]

/-- A table row, opaque to the operations under proof. -/
structure Mod4Row where
  payload : String
deriving DecidableEq

/-- A table in the body: its tblPr children and its rows. -/
structure Mod4Table where
  tblPr : List TblPrChild
  rows : List Mod4Row
deriving DecidableEq

/-- A block-level node of the document body: a table, a paragraph with its
concatenated text content, or any other element carried by its tag. -/
inductive BodyNode where
  | tbl (t : Mod4Table)
  | para (text : String)
  | other (tag : String)
deriving DecidableEq

/-- Whether a body node is a table. -/
def isTblNode : BodyNode → Bool
  | .tbl _ => true
  | _ => false

/-- Whether a body node is an empty paragraph (text blank after trimming). -/
def isEmptyParaNode : BodyNode → Bool
  | .para t => jsTrim t == ""
  | _ => false

/-- Whether any node of the list is a table. -/
def hasTableNode (l : List BodyNode) : Bool := l.any isTblNode

/-- The per-table options record of the repair pipeline. -/
structure Mod4Options where
  fixBorders : Bool
  fixSpacing : Bool
  autofit : Bool
  mergeNext : Bool
  fixAlign : Bool
deriving DecidableEq

/-! ### Module 4 analyzer: merge-candidate flag -/

/-- Walk the siblings after a table as MODULE_4_ANALYZE does: count empty
paragraphs, fail on a paragraph with text, stop at a table, skip any other
node.  Returns the clean-gap flag and the gap count. -/
def scanGap : List BodyNode → Bool × Nat
  | [] => (true, 0)
  | .tbl _ :: _ => (true, 0)
  | .para t :: rest =>
    if jsTrim t == "" then
      let r := scanGap rest
      (r.1, r.2 + 1)
    else (false, 0)
  | .other _ :: rest => scanGap rest

/-- The canMergeNext flag of MODULE_4_ANALYZE for a table, computed from its
following siblings: only when a later table exists, the walk meets no
paragraph with text before it, and fewer than 5 empty paragraphs are seen. -/
def analyzeCanMergeNext (siblings : List BodyNode) : Bool :=
  if hasTableNode siblings then
    let r := scanGap siblings
    r.1 && decide (r.2 < 5)
  else false

/-! ### Module 4 merge engine -/

/-- Split the sibling list at the first table node, as the MODULE_4_FIX merge
walk does: every node before it, whatever it is, is collected as a gap node. -/
def splitAtTable : List BodyNode → Option (List BodyNode × Mod4Table × List BodyNode)
  | [] => none
  | .tbl t :: rest => some ([], t, rest)
  | n :: rest => (splitAtTable rest).map fun x => (n :: x.1, x.2.1, x.2.2)

/-- One mergeNext application of MODULE_4_FIX on a table and its following
siblings: if any later table sibling exists, append its rows to the surviving
table, delete every intervening sibling and the absorbed table; otherwise do
nothing. -/
def mergeNextStep (t : Mod4Table) (siblings : List BodyNode) : Mod4Table × List BodyNode :=
  match splitAtTable siblings with
  | some x => ({ t with rows := t.rows ++ x.2.1.rows }, x.2.2)
  | none => (t, siblings)

/-! ### Module 4 repair pipeline: external gap normalization -/

/-- Collect the leading run of empty paragraphs after a table, as the
fixSpacing external-gap walk does, and report whether a table follows them
directly: a paragraph with text or any other node ends the walk without a
table found. -/
def collectGap : List BodyNode → List BodyNode × Bool
  | [] => ([], false)
  | .tbl _ :: _ => ([], true)
  | .para t :: rest =>
    if jsTrim t == "" then
      let r := collectGap rest
      (.para t :: r.1, r.2)
    else ([], false)
  | .other _ :: _ => ([], false)

/-- The fixSpacing external-gap normalization on the siblings after a table:
when a next table was found, insert one empty paragraph if the gap is empty,
or delete all gap paragraphs except the first. -/
def fixSpacingGap (siblings : List BodyNode) : List BodyNode :=
  let r := collectGap siblings
  if r.2 then
    if r.1.isEmpty then .para "" :: siblings
    else r.1.take 1 ++ siblings.drop r.1.length
  else siblings

/-- Option gating of the external-gap normalization inside MODULE_4_FIX: it
runs only under fixSpacing and only when mergeNext is not set. -/
def applyFixSpacingGap (opts : Mod4Options) (siblings : List BodyNode) : List BodyNode :=
  if opts.fixSpacing && !opts.mergeNext then fixSpacingGap siblings else siblings

/-! ### Field Filler: summary-paragraph rebuild -/

/-- A run the summary rebuild emits: its text, bold flag and red-color flag
(every such run also carries the fixed half-point size 26). -/
structure SummaryRun where
  text : String
  bold : Bool
  red : Bool
deriving DecidableEq

/-- The createRun helper of the summary rebuild (argument order of the
source: text, red flag, bold flag). -/
def createRun (text : String) (isRed isBold : Bool) : SummaryRun :=
  ⟨text, isBold, isRed⟩

/-- JS Number.toFixed(1) followed by replacing the dot with a comma, on an
exact rational percentage (rounding half up as toFixed does away from
representable ties). -/
def fmtPct (q : ℚ) : String :=
  let n : Int := Int.ediv (q.num * 20 + (q.den : Int)) (2 * (q.den : Int))
  toString (Int.ediv n 10) ++ "," ++ toString (Int.emod n 10)

/-- Per-level runs of the summary rebuild: for each selected level, a plain
lead-in, the percentage (compared against the old one when present) in bold
red, and the separator, with a period after the last level. -/
def summaryLevelRuns (pc : Nat → Option ℚ) (pOld : Option (Nat → Option ℚ)) :
    List Nat → List SummaryRun
  | [] => []
  | l :: rest =>
    let valNew := fmtPct ((pc l).getD 0)
    createRun ("cấp độ " ++ toString l ++ " con đạt ") false false ::
    (match pOld with
     | some po =>
       match po l with
       | some oldV => createRun (fmtPct oldV ++ "% > " ++ valNew ++ "%") true true
       | none => createRun (valNew ++ "%") true true
     | none => createRun (valNew ++ "%") true true) ::
    createRun (if rest.isEmpty then "." else ". Và ") false false ::
    summaryLevelRuns pc pOld rest

/-- The full run list the summary-paragraph rebuild appends: the bold prefix,
then either the no-level message or the per-level runs. -/
def buildSummaryRuns (pfx : String) (levels : List Nat)
    (pc : Nat → Option ℚ) (pOld : Option (Nat → Option ℚ)) : List SummaryRun :=
  createRun (pfx ++ " ") false true ::
  (if levels.isEmpty then [createRun " Chưa chọn cấp độ nào để đánh giá." false false]
   else summaryLevelRuns pc pOld levels)

/-! ### Field Filler: failure containment -/

/-- smartFillXML: the whole DOM pass runs inside a try block; the fallible
body is abstracted as a function returning the rewritten XML or an error,
and the catch returns the original XML string unchanged. -/
def smartFillXML (fill : String → Except String String) (xml : String) : String :=
  match fill xml with
  | .ok out => out
  | .error _ => xml

/-! ### Package level: MODULE_4_FIX on the zip container -/

/-- Look up a file of the package by its path. -/
def pkgGet (pkg : List (String × String)) (path : String) : Option String :=
  (pkg.find? fun e => e.1 == path).map Prod.snd

/-- Write a file of the package at a path, replacing any existing entry. -/
def pkgSet (pkg : List (String × String)) (path content : String) : List (String × String) :=
  (pkg.filter fun e => e.1 != path) ++ [(path, content)]

/-- Package-level behavior of MODULE_4_FIX: error only when the file or the
table config is missing from the payload; otherwise read the main document
part with the empty string as fallback when the entry is absent, run the DOM
transform (abstracted as a total function, since the DOM operations used
never throw), and write the result back into the package.  No check that the
main document part exists is performed. -/
def mod4FixPackage (transformXml : String → String)
    (mod4File : Option (List (String × String)))
    (mod4TableConfig : Option (List Mod4Options)) :
    Except String (List (String × String)) :=
  match mod4File, mod4TableConfig with
  | some pkg, some _ =>
    let xmlStr := (pkgGet pkg "word/document.xml").getD ""
    Except.ok (pkgSet pkg "word/document.xml" (transformXml xmlStr))
  | _, _ => Except.error "Thiếu dữ liệu."

/-! ### Sample data used by concrete witnesses and counterexamples -/

/-- A sample empty table. -/
def sampleTbl : Mod4Table := ⟨[], []⟩

/-- A sample table with one row. -/
def sampleTbl1 : Mod4Table := ⟨[], [⟨"r1"⟩]⟩

/-- A sample table with two rows. -/
def sampleTbl2 : Mod4Table := ⟨[], [⟨"s1"⟩, ⟨"s2"⟩]⟩

/-- A sample table with three rows. -/
def sampleTbl3 : Mod4Table := ⟨[], [⟨"t1"⟩, ⟨"t2"⟩, ⟨"t3"⟩]⟩

/-- Sample new-percentage table: level 1 scored 70. -/
def c7Percents : Nat → Option ℚ := fun l => if l == 1 then some 70 else none

/-- Sample old-percentage table: level 1 scored 50. -/
def c7PercentsOld : Nat → Option ℚ := fun l => if l == 1 then some 50 else none

/-! ### Helper lemmas shared by several proofs -/

/-- An empty-paragraph node is not a table node. -/
theorem emptyPara_not_tbl (g : BodyNode) (h : isEmptyParaNode g = true) :
    isTblNode g = false := by
  cases g with
  | tbl t => simp [isEmptyParaNode] at h
  | para t => rfl
  | other s => rfl

/-- A list of empty paragraphs contains no table node. -/
theorem hasTableNode_eq_false (l : List BodyNode)
    (h : ∀ g ∈ l, isEmptyParaNode g = true) : hasTableNode l = false := by
  rw [hasTableNode, List.any_eq_false]
  intro x hx
  simp [emptyPara_not_tbl x (h x hx)]

/-- The merge walk splits a sibling list at its first table. -/
theorem splitAtTable_append (pre : List BodyNode) (t2 : Mod4Table) (rest : List BodyNode)
    (h : hasTableNode pre = false) :
    splitAtTable (pre ++ .tbl t2 :: rest) = some (pre, t2, rest) := by
  induction pre with
  | nil => rfl
  | cons c pre ih =>
    rw [hasTableNode, List.any_cons, Bool.or_eq_false_iff] at h
    cases c with
    | tbl t => simp [isTblNode] at h
    | para s => simp [splitAtTable, ih h.2]
    | other s => simp [splitAtTable, ih h.2]

/-- The merge walk finds no table in a table-free sibling list. -/
theorem splitAtTable_none (l : List BodyNode) (h : hasTableNode l = false) :
    splitAtTable l = none := by
  induction l with
  | nil => rfl
  | cons c l ih =>
    rw [hasTableNode, List.any_cons, Bool.or_eq_false_iff] at h
    cases c with
    | tbl t => simp [isTblNode] at h
    | para s => simp [splitAtTable, ih h.2]
    | other s => simp [splitAtTable, ih h.2]

/-- The analyzer walk over a clean gap counts its empty paragraphs. -/
theorem scanGap_append (gaps : List BodyNode) (t2 : Mod4Table) (rest : List BodyNode)
    (h : ∀ g ∈ gaps, isEmptyParaNode g = true) :
    scanGap (gaps ++ .tbl t2 :: rest) = (true, gaps.length) := by
  induction gaps with
  | nil => rfl
  | cons g gaps ih =>
    have hg := h g (List.mem_cons_self _ _)
    have hrest : ∀ x ∈ gaps, isEmptyParaNode x = true :=
      fun x hx => h x (List.mem_cons_of_mem _ hx)
    cases g with
    | tbl t => simp [isEmptyParaNode] at hg
    | other s => simp [isEmptyParaNode] at hg
    | para s =>
      have hs : (jsTrim s == "") = true := by simpa [isEmptyParaNode] using hg
      simp [scanGap, hs, ih hrest]

/-- The fixSpacing walk over a clean gap collects exactly its empty
paragraphs and reports the following table. -/
theorem collectGap_append (gaps : List BodyNode) (t2 : Mod4Table) (rest : List BodyNode)
    (h : ∀ g ∈ gaps, isEmptyParaNode g = true) :
    collectGap (gaps ++ .tbl t2 :: rest) = (gaps, true) := by
  induction gaps with
  | nil => rfl
  | cons g gaps ih =>
    have hg := h g (List.mem_cons_self _ _)
    have hrest : ∀ x ∈ gaps, isEmptyParaNode x = true :=
      fun x hx => h x (List.mem_cons_of_mem _ hx)
    cases g with
    | tbl t => simp [isEmptyParaNode] at hg
    | other s => simp [isEmptyParaNode] at hg
    | para s =>
      have hs : (jsTrim s == "") = true := by simpa [isEmptyParaNode] using hg
      simp [collectGap, hs, ih hrest]

/-- After removing the first border element from a list with at most one,
no border element remains. -/
theorem removeFirstBorders_no_borders_left (l : List TblPrChild)
    (h : l.countP isBordersElem ≤ 1) :
    ∀ c ∈ removeFirstBorders l, isBordersElem c = false := by
  induction l with
  | nil => intro c hc; simp [removeFirstBorders] at hc
  | cons c cs ih =>
    rw [List.countP_cons] at h
    by_cases hb : isBordersElem c = true
    · intro x hx
      rw [hb, if_pos rfl] at h
      have h0 : cs.countP isBordersElem = 0 := by omega
      simp only [removeFirstBorders, hb, if_true] at hx
      have := List.countP_eq_zero.mp h0 x hx
      simpa using this
    · have hb' : isBordersElem c = false := by
        revert hb; cases isBordersElem c <;> simp
      intro x hx
      simp only [removeFirstBorders, hb', Bool.false_eq_true, if_false] at hx
      rcases List.mem_cons.mp hx with rfl | hx
      · exact hb'
      · refine ih ?_ x hx
        rw [hb', if_neg (by simp)] at h
        omega

/-- Removing the first border element from a border-free list followed by the
standard border element gives back the border-free list. -/
theorem removeFirstBorders_append_std (l : List TblPrChild)
    (h : ∀ c ∈ l, isBordersElem c = false) :
    removeFirstBorders (l ++ [stdTblBorders]) = l := by
  induction l with
  | nil => rfl
  | cons c cs ih =>
    have hc := h c (List.mem_cons_self _ _)
    have hcs : ∀ x ∈ cs, isBordersElem x = false :=
      fun x hx => h x (List.mem_cons_of_mem _ hx)
    simp [removeFirstBorders, hc, ih hcs]

/-- The bold red comparison run of a level with an old percentage is among
the per-level summary runs. -/
theorem mem_summaryLevelRuns (pc po : Nat → Option ℚ) (lvls : List Nat)
    (l : Nat) (oldV : ℚ) (hl : l ∈ lvls) (ho : po l = some oldV) :
    createRun (fmtPct oldV ++ "% > " ++ fmtPct ((pc l).getD 0) ++ "%") true true
      ∈ summaryLevelRuns pc (some po) lvls := by
  induction lvls with
  | nil => cases hl
  | cons hd tl ih =>
    rcases List.mem_cons.mp hl with heq | htl
    · subst heq
      simp only [summaryLevelRuns, ho]
      exact List.mem_cons_of_mem _ (List.mem_cons_self _ _)
    · simp only [summaryLevelRuns]
      exact List.mem_cons_of_mem _ (List.mem_cons_of_mem _ (List.mem_cons_of_mem _ (ih htl)))

/-! ### Claim theorems -/

/-- C1 (counterexample): with a non-empty paragraph between the two tables
and mergeNext applied, the MODULE_4_FIX merge step is not a no-op — it
removes the paragraph, moves both rows of the next table into the first, and
deletes the next table. -/
theorem mergeNext_content_not_noop :
    mergeNextStep sampleTbl1 [.para "Ghi chú quan trọng", .tbl sampleTbl2]
      = (⟨[], [⟨"r1"⟩, ⟨"s1"⟩, ⟨"s2"⟩]⟩, [])
    ∧ mergeNextStep sampleTbl1 [.para "Ghi chú quan trọng", .tbl sampleTbl2]
      ≠ (sampleTbl1, [.para "Ghi chú quan trọng", .tbl sampleTbl2]) := by
  decide

/-- C1 (amended): the MODULE_4_FIX merge step does not re-check the gap
content.  Whenever any later table sibling exists it merges, removing every
intervening sibling — non-empty paragraphs included — and the absorbed
table; it is a no-op exactly when no table sibling follows at all. -/
theorem mergeNext_merges_across_content :
    (∀ (t : Mod4Table) (pre : List BodyNode) (t2 : Mod4Table) (rest : List BodyNode),
        hasTableNode pre = false →
        mergeNextStep t (pre ++ .tbl t2 :: rest)
          = ({ t with rows := t.rows ++ t2.rows }, rest))
    ∧ (∀ (t : Mod4Table) (siblings : List BodyNode),
        hasTableNode siblings = false → mergeNextStep t siblings = (t, siblings)) := by
  constructor
  · intro t pre t2 rest h
    simp [mergeNextStep, splitAtTable_append pre t2 rest h]
  · intro t siblings h
    simp [mergeNextStep, splitAtTable_none siblings h]

/-- C2 (counterexample): for text containing the range 10-14 lần, the
synthesized short-goal texts are 8-12 lần and 9-13 lần — not the 6-10 lần
and 8-12 lần the claim states. -/
theorem smartSplit_10_14_not_spec_rows :
    smartSplitGoal "10-14 lần" = ["8-12 lần", "9-13 lần", "10-14 lần"]
    ∧ smartSplitGoal "10-14 lần" ≠ ["6-10 lần", "8-12 lần", "10-14 lần"] := by
  decide

/-- C2 (amended): for a goal containing the range 10-14 lần with smart
splitting on, the three rows read 8-12 lần, 9-13 lần, and the unmodified
10-14 lần; and for every range input all four bounds the split computes are
at least 1. -/
theorem smartSplit_10_14_rows :
    smartSplitGoal "10-14 lần" = ["8-12 lần", "9-13 lần", "10-14 lần"]
    ∧ ∀ a b : Int,
        1 ≤ (rangeSplitBounds a b).1.1 ∧ 1 ≤ (rangeSplitBounds a b).1.2
        ∧ 1 ≤ (rangeSplitBounds a b).2.1 ∧ 1 ≤ (rangeSplitBounds a b).2.2 := by
  refine ⟨by decide, ?_⟩
  intro a b
  simp only [rangeSplitBounds]
  refine ⟨le_max_left _ _, ?_, le_max_left _ _, ?_⟩
  · exact le_trans (by linarith [le_max_left (1 : Int) (a - 2)]) (le_max_left _ _)
  · exact le_trans (by linarith [le_max_left (1 : Int) (a - 1)]) (le_max_left _ _)

/-- C3: with fixSpacing applied and mergeNext not set, whatever the number
of empty paragraphs between two adjacent tables — zero, one, five or any
other — exactly one empty paragraph separates them afterwards. -/
theorem fixSpacing_gap_normalized (opts : Mod4Options) (gaps : List BodyNode)
    (t2 : Mod4Table) (rest : List BodyNode)
    (hs : opts.fixSpacing = true) (hm : opts.mergeNext = false)
    (hg : ∀ g ∈ gaps, isEmptyParaNode g = true) :
    ∃ g, isEmptyParaNode g = true
      ∧ applyFixSpacingGap opts (gaps ++ .tbl t2 :: rest) = g :: .tbl t2 :: rest := by
  have happ : applyFixSpacingGap opts (gaps ++ .tbl t2 :: rest)
      = fixSpacingGap (gaps ++ .tbl t2 :: rest) := by
    simp [applyFixSpacingGap, hs, hm]
  rw [happ]
  have hc := collectGap_append gaps t2 rest hg
  cases gaps with
  | nil =>
    rw [List.nil_append] at hc
    refine ⟨.para "", rfl, ?_⟩
    simp [fixSpacingGap, hc]
  | cons g gs =>
    rw [List.cons_append] at hc
    refine ⟨g, hg g (List.mem_cons_self _ _), ?_⟩
    simp [fixSpacingGap, hc, List.drop_left]

/-- C3 witness: five space-only paragraphs between tables collapse to one. -/
theorem fixSpacing_gap_normalized_witness :
    ∃ g, isEmptyParaNode g = true
      ∧ applyFixSpacingGap ⟨false, true, false, false, false⟩
          (List.replicate 5 (BodyNode.para " ") ++ BodyNode.tbl sampleTbl :: [])
        = g :: BodyNode.tbl sampleTbl :: [] :=
  fixSpacing_gap_normalized ⟨false, true, false, false, false⟩
    (List.replicate 5 (BodyNode.para " ")) sampleTbl [] rfl rfl (by decide)

/-- C4: merging two tables of m and n rows separated by fewer than five
empty paragraphs and nothing else yields one table of exactly m+n rows and
removes every gap node up to the absorbed table's position. -/
theorem merge_conservation (t : Mod4Table) (gaps : List BodyNode)
    (t2 : Mod4Table) (rest : List BodyNode)
    (hg : ∀ g ∈ gaps, isEmptyParaNode g = true) (_hk : gaps.length < 5) :
    (mergeNextStep t (gaps ++ .tbl t2 :: rest)).1.rows.length
      = t.rows.length + t2.rows.length
    ∧ (mergeNextStep t (gaps ++ .tbl t2 :: rest)).2 = rest := by
  have hpre : hasTableNode gaps = false := hasTableNode_eq_false gaps hg
  simp [mergeNextStep, splitAtTable_append gaps t2 rest hpre]

/-- C4 witness: 2 rows and 3 rows across a 3-paragraph gap merge to 5 rows
with no gap node left. -/
theorem merge_conservation_witness :
    (mergeNextStep sampleTbl2
        (List.replicate 3 (BodyNode.para "") ++ BodyNode.tbl sampleTbl3 :: [])).1.rows.length = 5
    ∧ (mergeNextStep sampleTbl2
        (List.replicate 3 (BodyNode.para "") ++ BodyNode.tbl sampleTbl3 :: [])).2 = [] := by
  have h := merge_conservation sampleTbl2 (List.replicate 3 (BodyNode.para ""))
    sampleTbl3 [] (by decide) (by decide)
  exact ⟨h.1.trans (by decide), h.2⟩

/-- C5: over a clean gap of empty paragraphs before the next table, the
analyzer's canMergeNext flag holds exactly when the gap has fewer than five
paragraphs — in particular false at exactly five and true at exactly four. -/
theorem analyze_gap_threshold (gaps : List BodyNode) (t2 : Mod4Table)
    (rest : List BodyNode) (h : ∀ g ∈ gaps, isEmptyParaNode g = true) :
    analyzeCanMergeNext (gaps ++ .tbl t2 :: rest) = decide (gaps.length < 5) := by
  have htbl : hasTableNode (gaps ++ .tbl t2 :: rest) = true := by
    simp [hasTableNode, List.any_append, List.any_cons, isTblNode]
  simp [analyzeCanMergeNext, htbl, scanGap_append gaps t2 rest h]

/-- C5 witness: five empty paragraphs are not mergeable, four are. -/
theorem analyze_gap_threshold_witness :
    analyzeCanMergeNext (List.replicate 5 (BodyNode.para "") ++ BodyNode.tbl sampleTbl :: [])
      = false
    ∧ analyzeCanMergeNext (List.replicate 4 (BodyNode.para "") ++ BodyNode.tbl sampleTbl :: [])
      = true := by
  constructor
  · rw [analyze_gap_threshold (List.replicate 5 (BodyNode.para "")) sampleTbl [] (by decide)]
    decide
  · rw [analyze_gap_threshold (List.replicate 4 (BodyNode.para "")) sampleTbl [] (by decide)]
    decide

/-- C6: whenever the range pattern matches the goal text with bounds a < b,
the synthesizer's rows are the text with the match replaced by the range
reduced by 2, then by 1 — lower bound floored at 1 and kept at least 1 below
the upper bound, unit suffix preserved — and the unmodified original last. -/
theorem smartSplit_range_split (txt : String) (m : RangeMatch)
    (hm : findRange txt.data = some m) (hab : m.a < m.b) :
    smartSplitGoal txt =
      [ String.mk (replFirst txt.data m.full
          (intStr (max 1 ((m.a : Int) - 2))
            ++ '-' :: intStr (max (max 1 ((m.a : Int) - 2) + 1) ((m.b : Int) - 2)) ++ m.suffix)),
        String.mk (replFirst txt.data m.full
          (intStr (max 1 ((m.a : Int) - 1))
            ++ '-' :: intStr (max (max 1 ((m.a : Int) - 1) + 1) ((m.b : Int) - 1)) ++ m.suffix)),
        txt ]
    ∧ 1 ≤ max 1 ((m.a : Int) - 2)
    ∧ max 1 ((m.a : Int) - 2) < max (max 1 ((m.a : Int) - 2) + 1) ((m.b : Int) - 2)
    ∧ 1 ≤ max 1 ((m.a : Int) - 1)
    ∧ max 1 ((m.a : Int) - 1) < max (max 1 ((m.a : Int) - 1) + 1) ((m.b : Int) - 1) := by
  refine ⟨?_, le_max_left _ _, ?_, le_max_left _ _, ?_⟩
  · simp only [smartSplitGoal, hm]
    rw [if_pos hab]
    simp [rangeSplitBounds]
  · exact lt_of_lt_of_le (lt_add_one _) (le_max_left _ _)
  · exact lt_of_lt_of_le (lt_add_one _) (le_max_left _ _)

/-- C6 witness: the range 2-4 từ splits into 1-2 từ and 1-3 từ (the lower
bound floors at 1) before the unmodified original. -/
theorem smartSplit_range_split_witness :
    smartSplitGoal "nói được 2-4 từ"
      = ["nói được 1-2 từ", "nói được 1-3 từ", "nói được 2-4 từ"] := by
  have h := smartSplit_range_split "nói được 2-4 từ"
    ⟨2, 4, "2-4 từ".data, " từ".data⟩ (by decide) (by decide)
  exact h.1.trans (by decide)

/-- C7 (counterexample): with an old and a new percentage for level 1, the
rebuilt summary contains the bold red run 50,0% > 70,0% and no run whose
text is the claimed 50,0% => 70,0%. -/
theorem summary_separator_not_arrow :
    createRun "50,0% > 70,0%" true true
      ∈ buildSummaryRuns "Nhận định chung về kết quả:" [1] c7Percents (some c7PercentsOld)
    ∧ ∀ r ∈ buildSummaryRuns "Nhận định chung về kết quả:" [1] c7Percents (some c7PercentsOld),
        r.text ≠ "50,0% => 70,0%" := by
  decide

/-- C7 (amended): when an old percentage set is present and defined for a
selected level, the rebuilt summary paragraph contains the comparison run
old% > new% (single greater-than separator) in bold plus red style. -/
theorem summary_comparison_bold_red (pfx : String) (pc po : Nat → Option ℚ)
    (lvls : List Nat) (l : Nat) (oldV : ℚ)
    (hl : l ∈ lvls) (ho : po l = some oldV) :
    createRun (fmtPct oldV ++ "% > " ++ fmtPct ((pc l).getD 0) ++ "%") true true
      ∈ buildSummaryRuns pfx lvls pc (some po) := by
  have hne : lvls.isEmpty = false := by
    cases lvls with
    | nil => cases hl
    | cons a b => rfl
  apply List.mem_cons_of_mem
  rw [hne]
  simp only [Bool.false_eq_true, if_false]
  exact mem_summaryLevelRuns pc po lvls l oldV hl ho

/-- C7 witness: the concrete comparison run for level 1 (old 50, new 70). -/
theorem summary_comparison_bold_red_witness :
    createRun "50,0% > 70,0%" true true
      ∈ buildSummaryRuns "Tổng kết" [1] c7Percents (some c7PercentsOld) := by
  have h := summary_comparison_bold_red "Tổng kết" c7Percents c7PercentsOld
    [1] 1 50 (by decide) (by decide)
  have e : createRun (fmtPct 50 ++ "% > " ++ fmtPct ((c7Percents 1).getD 0) ++ "%") true true
      = createRun "50,0% > 70,0%" true true := by decide
  exact e ▸ h

/-- C8 (counterexample): on a package without word/document.xml and a valid
payload, MODULE_4_FIX does not fail — it returns an output package (the
transform of the empty string written at the fixed path). -/
theorem mod4Fix_missing_part_still_outputs :
    mod4FixPackage (fun s => s) (some [("word/styles.xml", "<w:styles/>")]) (some [])
      = Except.ok [("word/styles.xml", "<w:styles/>"), ("word/document.xml", "")]
    ∧ ∀ e, mod4FixPackage (fun s => s) (some [("word/styles.xml", "<w:styles/>")]) (some [])
        ≠ Except.error e := by
  constructor
  · rfl
  · intro e he
    rw [show mod4FixPackage (fun s => s) (some [("word/styles.xml", "<w:styles/>")]) (some [])
        = Except.ok [("word/styles.xml", "<w:styles/>"), ("word/document.xml", "")] from rfl] at he
    exact Except.noConfusion he

/-- C8 (amended): when the main document part is absent, MODULE_4_FIX does
not error: it substitutes the empty string, applies the transform, and still
returns an output package; its only error is the missing-payload one. -/
theorem mod4Fix_missing_part_proceeds (transform : String → String)
    (pkg : List (String × String)) (cfg : List Mod4Options)
    (h : pkgGet pkg "word/document.xml" = none) :
    mod4FixPackage transform (some pkg) (some cfg)
      = Except.ok (pkgSet pkg "word/document.xml" (transform "")) := by
  simp [mod4FixPackage, h]

/-- C8 witness: a concrete package lacking the part yields an ok output. -/
theorem mod4Fix_missing_part_proceeds_witness :
    mod4FixPackage (fun s => s) (some [("word/styles.xml", "<w:styles/>")]) (some [])
      = Except.ok (pkgSet [("word/styles.xml", "<w:styles/>")] "word/document.xml" "") :=
  mod4Fix_missing_part_proceeds (fun s => s) [("word/styles.xml", "<w:styles/>")] [] (by decide)

/-- C9: fixBorders is idempotent on any table-properties child list holding
at most one border-definition element (a well-formed tblPr has at most one):
the second application rebuilds exactly the same border set. -/
theorem fixBorders_idempotent (tblPr : List TblPrChild)
    (h : tblPr.countP isBordersElem ≤ 1) :
    fixBorders (fixBorders tblPr) = fixBorders tblPr := by
  have hno := removeFirstBorders_no_borders_left tblPr h
  show removeFirstBorders (removeFirstBorders tblPr ++ [stdTblBorders]) ++ [stdTblBorders]
      = removeFirstBorders tblPr ++ [stdTblBorders]
  rw [removeFirstBorders_append_std _ hno]

/-- C9 witness: idempotence on a tblPr with one incomplete border element. -/
theorem fixBorders_idempotent_witness :
    fixBorders (fixBorders [.otherPr "w:tblW",
        .borders [⟨"top", "single", "8", "0", "FF0000"⟩]])
      = fixBorders [.otherPr "w:tblW", .borders [⟨"top", "single", "8", "0", "FF0000"⟩]] :=
  fixBorders_idempotent [.otherPr "w:tblW", .borders [⟨"top", "single", "8", "0", "FF0000"⟩]]
    (by decide)

/-- C10: when the fallible smart-fill body throws, smartFillXML returns the
original XML string completely unchanged. -/
theorem smartFill_error_returns_original (fill : String → Except String String)
    (xml e : String) (h : fill xml = .error e) :
    smartFillXML fill xml = xml := by
  simp [smartFillXML, h]

/-- C10 witness: a body failing with a parse error leaves the XML intact. -/
theorem smartFill_error_returns_original_witness :
    smartFillXML (fun _ => Except.error "Lỗi phân tích XML") "<w:document/>"
      = "<w:document/>" :=
  smartFill_error_returns_original (fun _ => Except.error "Lỗi phân tích XML")
    "<w:document/>" "Lỗi phân tích XML" rfl

/-- C1 witness: a gap holding a non-empty paragraph is wiped and the tables
merge all the same. -/
theorem mergeNext_merges_across_content_witness :
    mergeNextStep sampleTbl1 ([BodyNode.para "Nội dung"] ++ BodyNode.tbl sampleTbl2 :: [])
      = ({ sampleTbl1 with rows := sampleTbl1.rows ++ sampleTbl2.rows }, []) :=
  mergeNext_merges_across_content.1 sampleTbl1 [BodyNode.para "Nội dung"] sampleTbl2 []
    (by decide)
